import Mathlib

/-!
Verification of the country-insights reconciliation pipeline
(src/pipeline.py) against its design specification.

The Python module is embedded shallowly:

* network responses are passed in as values (a function from attempt
  or page number to an outcome), since the real functions perform IO;
* pandas DataFrames become lists of records; column renames between
  two frames of the same content become the identity on records;
* floating-point indicator values are represented by integers and
  missing values by `Option`; the pipeline never does float arithmetic
  on them (they are only tested for missingness, compared with zero,
  or passed through), so the ordering is faithful; missingness rates
  are exact rationals where pandas uses floats;
* `Series.astype(str)` maps a missing value to the string "nan",
  exactly as pandas does, which matters for the code-length filter.
-/

/-! ## ResilientFetcher: safe_get -/

/-- Outcome of one HTTP attempt as seen by `safe_get`: either a status
code was returned, or the transport layer raised (timeout, connection
error). -/
inductive HttpOutcome where
  | status (code : Nat)
  | transportError
deriving DecidableEq

/-- Result of `safe_get`: either a response returned from a given
attempt index with a given status, or the final RuntimeError after all
retries were consumed. -/
inductive GetResult where
  | success (attempt : Nat) (status : Nat)
  | failure
deriving DecidableEq

/-- The sleep duration `min(60, 2 ** i)` used between attempts. -/
def backoff (i : Nat) : Nat := min 60 (2 ^ i)

/-- The statuses listed in `safe_get` as retry-with-sleep:
`r.status_code in (429, 500, 502, 503, 504)`. -/
def retryStatus (c : Nat) : Bool :=
  c == 429 || c == 500 || c == 502 || c == 503 || c == 504

/-- Statuses for which `Response.raise_for_status()` raises an
HTTPError: every 4xx and 5xx status. -/
def raiseForStatus (c : Nat) : Bool :=
  decide (400 ≤ c) && decide (c < 600)

/-- The retry loop of `safe_get` (src/pipeline.py lines 34-51).
`i` is the current attempt index, the second argument the number of
attempts left out of `retries`.  One attempt: issue the request
(`respond i`); a transport error is caught by the generic handler,
which sleeps `backoff i` and retries; a status in the retry list
sleeps `backoff i` and retries; any other 4xx or 5xx status makes
`raise_for_status` throw, which the same generic handler catches,
sleeping `backoff i` and retrying; otherwise the response is returned.
The second component records the sleeps performed, in order. -/
def safe_get_go (respond : Nat → HttpOutcome) : Nat → Nat → GetResult × List Nat
  | _, 0 => (GetResult.failure, [])
  | i, remaining + 1 =>
    match respond i with
    | HttpOutcome.transportError =>
      let r := safe_get_go respond (i + 1) remaining
      (r.1, backoff i :: r.2)
    | HttpOutcome.status c =>
      if retryStatus c then
        let r := safe_get_go respond (i + 1) remaining
        (r.1, backoff i :: r.2)
      else if raiseForStatus c then
        let r := safe_get_go respond (i + 1) remaining
        (r.1, backoff i :: r.2)
      else (GetResult.success i c, [])

/-- `safe_get(url, timeout, retries)`: run the retry loop from attempt
index 0 with `retries` attempts available. -/
def safe_get (respond : Nat → HttpOutcome) (retries : Nat) : GetResult × List Nat :=
  safe_get_go respond 0 retries

/-! ## PaginatedCollector: worldbank_fetch_all_pages -/

/-- One page response as decoded by `r.json()` and inspected by the
loop: either not the expected two-part envelope (`not isinstance(payload,
list) or len(payload) < 2`), or an envelope carrying the page-count
metadata (`int(meta.get("pages", 0) or 0)`, so 0 means absent) and the
page rows.  Row content is opaque; rows are numbers here. -/
inductive WBPayload where
  | invalid
  | envelope (pages : Nat) (rows : List Nat)
deriving DecidableEq

/-- The paging loop of `worldbank_fetch_all_pages` (src/pipeline.py
lines 54-79).  `page` starts at 1 and `acc` accumulates rows in page
order.  The Python loop is unbounded, so the embedding carries fuel;
`none` means the loop was still running when the fuel ran out. -/
def worldbank_fetch_all_pages_go (respond : Nat → WBPayload) :
    Nat → Nat → List Nat → Option (List Nat)
  | 0, _, _ => none
  | fuel + 1, page, acc =>
    match respond page with
    | WBPayload.invalid => some acc
    | WBPayload.envelope pages rows =>
      let acc2 := acc ++ rows
      if pages ≠ 0 ∧ pages ≤ page then some acc2
      else if pages = 0 ∧ rows = [] then some acc2
      else worldbank_fetch_all_pages_go respond fuel (page + 1) acc2

/-- `worldbank_fetch_all_pages(base_url, per_page)`: run the paging
loop from page 1 with an empty accumulator. -/
def worldbank_fetch_all_pages (respond : Nat → WBPayload) (fuel : Nat) :
    Option (List Nat) :=
  worldbank_fetch_all_pages_go respond fuel 1 []

/-! ## CountryMasterResolver: fetch_countries_master plus the guard in main -/

/-- A row of the resolved country master table.  Only the join key and
one payload field are modelled; the remaining columns ride along
unchanged through the resolver exactly as this one does. -/
structure MasterRow where
  iso3 : String
  country : Option String
deriving DecidableEq

/-- `fetch_countries_master` (src/pipeline.py lines 155-165) with the
outcome of each adapter passed as a value: try the World Bank adapter;
if it returned a non-empty frame, return it (the column rename
country_name_wb to country and capital_wb to capital is the identity on
records in this embedding, both adapters being normalized to the common
shape); if it raised or returned an empty frame, return whatever
`fetch_restcountries` produces, letting its exception propagate. -/
def fetch_countries_master (wbRes rcRes : Except Unit (List MasterRow)) :
    Except Unit (List MasterRow) :=
  match wbRes with
  | Except.ok wb => if wb.isEmpty then rcRes else Except.ok wb
  | Except.error _ => rcRes

/-- The resolver as observed by the caller of `main` (src/pipeline.py
lines 226-228): after `fetch_countries_master`, a zero-row master
raises RuntimeError. -/
def resolve_master (wbRes rcRes : Except Unit (List MasterRow)) :
    Except Unit (List MasterRow) :=
  match fetch_countries_master wbRes rcRes with
  | Except.ok l => if l.isEmpty then Except.error () else Except.ok l
  | Except.error e => Except.error e

/-- An adapter outcome counts as unusable for fallback purposes when it
raised or returned zero rows. -/
def failedOrEmpty (r : Except Unit (List MasterRow)) : Prop :=
  r = Except.error () ∨ r = Except.ok []

/-! ## LatestValueReducer: latest_by_country -/

/-- One indicator observation as produced by `fetch_indicator_bulk`:
the join key, a nullable integer year (column dtype Int64) and a
nullable numeric value. -/
structure Obs where
  iso3 : String
  year : Option Int
  value : Option Int
deriving DecidableEq

/-- One reduced row: the key, the indicator value column and the
renamed year column. -/
structure Reduced where
  iso3 : String
  value : Option Int
  year : Option Int
deriving DecidableEq

/-- Ordering of the year column under
`sort_values(["iso3", "year"], ascending=[True, False])`:
descending on present years, missing years placed last
(pandas default na_position applies to either sort direction). -/
def yearDescLe : Option Int → Option Int → Bool
  | some x, some y => decide (y ≤ x)
  | some _, none => true
  | none, some _ => false
  | none, none => true

/-- The lexicographic row ordering used by the reducer: iso3 ascending,
then year descending with missing years last.  pandas sorts multiple
keys with a stable lexsort, which `List.mergeSort` models. -/
def obsLe (a b : Obs) : Bool :=
  if a.iso3 = b.iso3 then yearDescLe a.year b.year
  else decide (a.iso3 < b.iso3)

/-- Stage one of `latest_by_country` (src/pipeline.py lines 188-196):
drop rows with a missing value, then sort by iso3 ascending and year
descending (pandas lexsort is stable).  The groupby that follows takes
one output row per distinct key, and for each column the first entry
within the group that is not missing (that is what pandas
GroupBy.first computes).  On an empty input the Python function
returns an empty frame early, which the general path also yields. -/
def lbc_sorted (obs : List Obs) : List Obs :=
  (obs.filter (fun o => o.value.isSome)).mergeSort obsLe

/-- The rows of one groupby group: the sorted rows carrying the given
key. -/
def lbc_group (obs : List Obs) (c : String) : List Obs :=
  (lbc_sorted obs).filter (fun o => o.iso3 == c)

/-- The reducer itself: one output row per distinct key of the sorted
frame, each column holding the first non-missing entry of its group. -/
def latest_by_country (obs : List Obs) : List Reduced :=
  ((lbc_sorted obs).map (fun o => o.iso3)).dedup.map (fun c =>
    { iso3 := c
      value := ((lbc_group obs c).filterMap (fun o => o.value)).head?
      year := ((lbc_group obs c).filterMap (fun o => o.year)).head? })

/-! ## DatasetMerger: the merge loop in main -/

/-- The column names contributed by the master table in this embedding
of `MasterRow`. -/
def masterCols : List String := ["iso3", "country"]

/-- A merged row: the master record plus the indicator columns
accumulated by the successive left joins, as name-cell pairs. -/
structure MergedRow where
  master : MasterRow
  ind : List (String × Option Int)
deriving DecidableEq

/-- The merge loop of `main` (src/pipeline.py lines 245-250): starting
from the master table, left-join each indicator frame on iso3 — but
only frames with at least one row (`frame.shape[0] > 0`; the iso3
column is always present in this record embedding).  Each joined frame
appends its value and year columns; a master key absent from the frame
receives missing cells.  The indicator frames come from
`latest_by_country`, so each key has at most one match and `find?`
models the join. -/
def merge_step (acc : List String × List MergedRow) (nf : String × List Reduced) :
    List String × List MergedRow :=
  if nf.2.length > 0 then
    (acc.1 ++ [nf.1, nf.1 ++ "_year"],
     acc.2.map (fun r =>
       match nf.2.find? (fun t => t.iso3 == r.master.iso3) with
       | some t =>
         { master := r.master
           ind := r.ind ++ [(nf.1, t.value), (nf.1 ++ "_year", t.year)] }
       | none =>
         { master := r.master
           ind := r.ind ++ [(nf.1, none), (nf.1 ++ "_year", none)] }))
  else acc

/-- The whole merge loop, starting from the master frame. -/
def merge_frames (master : List MasterRow) (frames : List (String × List Reduced)) :
    List String × List MergedRow :=
  frames.foldl merge_step (masterCols, master.map (fun m => { master := m, ind := [] }))

/-- The columns one indicator frame contributes to the merged result:
none when the frame was skipped for having no rows. -/
def frameCols (nf : String × List Reduced) : List String :=
  if nf.2.length > 0 then [nf.1, nf.1 ++ "_year"] else []

/-- The per-indicator loop of `main` (src/pipeline.py lines 236-243):
each indicator whose fetch succeeded contributes its reduced frame; a
fetch that raised is caught and contributes the empty substitute frame
`pd.DataFrame(columns=["iso3", name, name_year])`. -/
def indicator_frames (inds : List (String × Except Unit (List Obs))) :
    List (String × List Reduced) :=
  inds.map (fun p => (p.1,
    match p.2 with
    | Except.ok obs => latest_by_country obs
    | Except.error _ => []))

/-! ## SourceAdapter variants -/

/-- `Series.astype(str)` on an object column: a present string is kept,
a missing value becomes the three-character string "nan". -/
def pandasAstypeStr : Option String → String
  | some s => s
  | none => "nan"

/-- The code normalization `astype(str).str.strip()` applied to the
iso3 column of both adapters. -/
def normCode (o : Option String) : String := (pandasAstypeStr o).trim

/-- An input row of the World Bank country listing, with the fields the
adapter reads (flattened as by json_normalize).  Missing JSON fields
are `none`. -/
structure WBRow where
  name : Option String
  regionValue : Option String
  incomeLevelValue : Option String
  capitalCity : Option String
  latitude : Option String
  longitude : Option String
  countryiso3code : Option String
deriving DecidableEq

/-- An output row of `fetch_worldbank_countries` after the renames:
iso3 is a definite string because the whole column went through
`astype(str)`. -/
structure WBCountry where
  iso3 : String
  country_name_wb : Option String
  region : Option String
  income_level : Option String
  capital_wb : Option String
  lat : Option String
  lon : Option String
deriving DecidableEq

/-- `drop_duplicates(subset=["iso3"], keep="first")`: keep each row
whose key has not been seen yet, preserving order. -/
def dedupByKey {α : Type} (key : α → String) : List String → List α → List α
  | _, [] => []
  | seen, a :: rest =>
    if seen.contains (key a) then dedupByKey key seen rest
    else a :: dedupByKey key (key a :: seen) rest

/-- The body of `fetch_worldbank_countries` (src/pipeline.py lines
82-118) before deduplication: exclude rows whose region.value equals
"Aggregates" (a missing region is kept, as NaN != "Aggregates" in
pandas), rename to the output shape, normalize the code column with
`astype(str).str.strip()`, and keep rows whose code has exactly 3
characters (the notna() test is vacuous after astype(str)). -/
def wb_normalized (rows : List WBRow) : List WBCountry :=
  ((rows.filter (fun r => !(r.regionValue == some "Aggregates"))).map
    (fun r =>
      { iso3 := normCode r.countryiso3code
        country_name_wb := r.name
        region := r.regionValue
        income_level := r.incomeLevelValue
        capital_wb := r.capitalCity
        lat := r.latitude
        lon := r.longitude })).filter (fun r => r.iso3.length == 3)

/-- `fetch_worldbank_countries`: the normalized rows deduplicated by
code, keeping the first occurrence. -/
def fetch_worldbank_countries (rows : List WBRow) : List WBCountry :=
  dedupByKey (fun r => r.iso3) [] (wb_normalized rows)

/-- An input row of the restcountries bulk endpoint with the fields the
adapter reads.  The population field carries the result of
`pd.to_numeric(..., errors="coerce")`. -/
structure RCRow where
  cca3 : Option String
  nameCommon : Option String
  region : Option String
  subregion : Option String
  capital : Option (List String)
  latlng : Option (List Rat)
  population : Option Int
deriving DecidableEq

/-- An output row of `fetch_restcountries`. -/
structure RCCountry where
  iso3 : String
  country : Option String
  region : Option String
  subregion : Option String
  capital : Option String
  lat : Option Rat
  lon : Option Rat
  population : Option Int
deriving DecidableEq

/-- The body of `fetch_restcountries` (src/pipeline.py lines 121-152)
before deduplication: project the fields (first element of the capital
list, first two elements of latlng), normalize the code column with
`astype(str).str.strip()`, and keep rows whose code has exactly 3
characters. -/
def rc_project (r : RCRow) : RCCountry where
  iso3 := normCode r.cca3
  country := r.nameCommon
  region := r.region
  subregion := r.subregion
  capital := match r.capital with
    | some (c :: _) => some c
    | _ => none
  lat := match r.latlng with
    | some (x :: _) => some x
    | _ => none
  lon := match r.latlng with
    | some (_ :: y :: _) => some y
    | _ => none
  population := r.population

/-- The filtered projection, before deduplication. -/
def rc_normalized (rows : List RCRow) : List RCCountry :=
  (rows.map rc_project).filter (fun r => r.iso3.length == 3)

/-- `fetch_restcountries`: the normalized rows deduplicated by code,
keeping the first occurrence. -/
def fetch_restcountries (rows : List RCRow) : List RCCountry :=
  dedupByKey (fun r => r.iso3) [] (rc_normalized rows)

/-- A sample World Bank listing row, for concrete evaluations. -/
def wbRowSample : WBRow where
  name := some "Aruba"
  regionValue := some "Latin America"
  incomeLevelValue := none
  capitalCity := none
  latitude := none
  longitude := none
  countryiso3code := some "ABW"

/-- A sample restcountries row, for concrete evaluations. -/
def rcRowSample : RCRow where
  cca3 := some "ABW"
  nameCommon := some "Aruba"
  region := some "Americas"
  subregion := none
  capital := none
  latlng := none
  population := some 106766

/-! ## QualityGate: run_quality_checks -/

/-- A non-missing cell of the merged frame: numeric or text. -/
inductive Cell where
  | num (x : Int)
  | str (s : String)
deriving DecidableEq

/-- The merged frame as seen by the quality gate: its column names and
its rows, each row a list of column-cell pairs. -/
structure QFrame where
  cols : List String
  rows : List (List (String × Option Cell))
deriving DecidableEq

/-- Look a cell up in a row; a column absent from the row reads as
missing. -/
def getCell (row : List (String × Option Cell)) (c : String) : Option Cell :=
  match row.find? (fun p => p.1 == c) with
  | some p => p.2
  | none => none

/-- The values of one column, in row order. -/
def colValues (df : QFrame) (c : String) : List (Option Cell) :=
  df.rows.map (fun r => getCell r c)

/-- `Series.duplicated().sum()`: the number of entries equal to some
earlier entry (the first occurrence of each value is not counted). -/
def dupCount : List (Option Cell) → List (Option Cell) → Nat
  | _, [] => 0
  | seen, a :: rest => (if seen.contains a then 1 else 0) + dupCount (a :: seen) rest

/-- `final_df.isna().mean()` for one column: the fraction of rows whose
cell is missing, as an exact rational. -/
def missRate (df : QFrame) (c : String) : ℚ :=
  (df.rows.countP (fun r => (getCell r c).isNone) : ℚ) / (df.rows.length : ℚ)

/-- `missing_rate.sort_values(ascending=False).head(10)`: every column
paired with its missing rate, sorted descending by rate, first ten
kept. -/
def topMissing (df : QFrame) : List (String × ℚ) :=
  ((df.cols.map (fun c => (c, missRate df c))).mergeSort
    (fun a b => decide (b.2 ≤ a.2))).take 10

/-- One entry of the checks table: name, pass flag, and the details
cell, which holds either a count or a message. -/
structure Check where
  name : String
  passed : Bool
  details : Sum Nat String
deriving DecidableEq

/-- The known numeric indicator columns probed by the non-negativity
loop. -/
def indicatorColumns : List String :=
  ["population", "gdp_usd", "gdp_per_capita_usd", "life_expectancy"]

/-- `(final_df[col].dropna() < 0).sum()`: the number of present numeric
cells below zero in a column. -/
def negCount (df : QFrame) (c : String) : Nat :=
  df.rows.countP (fun r =>
    match getCell r c with
    | some (Cell.num x) => decide (x < 0)
    | _ => false)

/-- The checks list built by `run_quality_checks` (src/pipeline.py
lines 199-216): the iso3 uniqueness check (duplicate count 0 when the
column is absent), the always-passing missingness-report entry, then
one non-negativity check per known indicator column present in the
frame. -/
def quality_checks (df : QFrame) : List Check :=
  let dup := if df.cols.contains "iso3" then dupCount [] (colValues df "iso3") else 0
  [{ name := "unique_iso3", passed := dup == 0, details := Sum.inl dup },
   { name := "missingness_report_generated", passed := true,
     details := Sum.inr "see qa_missingness_report.csv" }] ++
  (indicatorColumns.filter (fun c => df.cols.contains c)).map
    (fun c =>
      { name := c ++ "_non_negative", passed := negCount df c == 0,
        details := Sum.inl (negCount df c) })

/-- `run_quality_checks`: the overall verdict is
`report["passed"].all()`, and the second component is the top-10
missingness table. -/
def run_quality_checks (df : QFrame) : Bool × List (String × ℚ) :=
  ((quality_checks df).all (fun c => c.passed), topMissing df)

/-- A concrete frame with exactly two rows sharing one country code. -/
def twoRowFrame : QFrame :=
  { cols := ["iso3"]
    rows := [[("iso3", some (Cell.str "USA"))], [("iso3", some (Cell.str "USA"))]] }

/-! ## Claim C2 -/

/-- C2: the resolver (fetch_countries_master plus the zero-row guard in
main) errors exactly when every adapter in priority order raised or
returned an empty set; a primary success with rows is returned exactly;
with the primary raising, a non-empty secondary result is returned
exactly; a primary success with zero rows likewise falls through to the
secondary. -/
theorem C2_master_resolver_fallback (wbRes rcRes : Except Unit (List MasterRow)) :
    (resolve_master wbRes rcRes = Except.error () ↔
      (failedOrEmpty wbRes ∧ failedOrEmpty rcRes)) ∧
    (∀ l, wbRes = Except.ok l → l ≠ [] → resolve_master wbRes rcRes = Except.ok l) ∧
    (∀ m, wbRes = Except.error () → rcRes = Except.ok m → m ≠ [] →
      resolve_master wbRes rcRes = Except.ok m) ∧
    (∀ m, wbRes = Except.ok [] → rcRes = Except.ok m → m ≠ [] →
      resolve_master wbRes rcRes = Except.ok m) := by
  refine ⟨?_, ?_, ?_, ?_⟩
  · cases wbRes with
    | ok wb =>
      cases wb with
      | nil =>
        cases rcRes with
        | ok rc =>
          cases rc with
          | nil => simp [resolve_master, fetch_countries_master, failedOrEmpty]
          | cons a t => simp [resolve_master, fetch_countries_master, failedOrEmpty]
        | error e => simp [resolve_master, fetch_countries_master, failedOrEmpty]
      | cons a t => simp [resolve_master, fetch_countries_master, failedOrEmpty]
    | error e =>
      cases rcRes with
      | ok rc =>
        cases rc with
        | nil => simp [resolve_master, fetch_countries_master, failedOrEmpty]
        | cons a t => simp [resolve_master, fetch_countries_master, failedOrEmpty]
      | error e2 => simp [resolve_master, fetch_countries_master, failedOrEmpty]
  · intro l hwb hl
    subst hwb
    simp [resolve_master, fetch_countries_master, List.isEmpty_iff, hl]
  · intro m hwb hrc hm
    subst hwb; subst hrc
    simp [resolve_master, fetch_countries_master, List.isEmpty_iff, hm]
  · intro m hwb hrc hm
    subst hwb; subst hrc
    simp [resolve_master, fetch_countries_master, List.isEmpty_iff, hm]

/-- Witness for C2: with the primary raising and the secondary
returning one row, the resolver returns exactly that row. -/
theorem C2_master_resolver_fallback_witness :
    resolve_master (Except.error ()) (Except.ok [⟨"USA", some "United States"⟩]) =
      Except.ok [⟨"USA", some "United States"⟩] :=
  (C2_master_resolver_fallback (Except.error ())
      (Except.ok [⟨"USA", some "United States"⟩])).2.2.1
    [⟨"USA", some "United States"⟩] rfl rfl (by simp)

/-! ## Claim C3 -/

/-- C3 counterexample: with every attempt answering HTTP 404 (a 4xx
other than 429) and the default six retries, `safe_get` does not raise
on the first response without sleeping; the HTTPError from
raise_for_status is caught by the generic handler, so the call sleeps
six times with the full backoff schedule and fails only after consuming
every attempt. -/
theorem C3_counterexample_404_retried :
    safe_get (fun _ => HttpOutcome.status 404) 6 =
      (GetResult.failure, [1, 2, 4, 8, 16, 32]) ∧
    (safe_get (fun _ => HttpOutcome.status 404) 6).2 ≠ [] := by
  constructor
  · rfl
  · intro h
    rw [show safe_get (fun _ => HttpOutcome.status 404) 6 =
        (GetResult.failure, [1, 2, 4, 8, 16, 32]) from rfl] at h
    simp at h

/-- C3 amended: on a response stream of non-retryable client errors
(4xx other than 429), `safe_get` raises nothing immediately; each such
response makes raise_for_status throw inside the try block, the generic
except handler sleeps `min(60, 2 ** attempt)`, and the loop retries, so
the call consumes every attempt, sleeps once per attempt, and raises
RuntimeError only after the retries are exhausted. -/
theorem C3_amended_4xx_consumes_all_retries (respond : Nat → HttpOutcome)
    (retries : Nat)
    (h : ∀ i, i < retries → ∃ c, respond i = HttpOutcome.status c ∧
      400 ≤ c ∧ c < 500 ∧ c ≠ 429) :
    safe_get respond retries = (GetResult.failure, (List.range retries).map backoff) := by
  have main : ∀ remaining i,
      (∀ j, i ≤ j → j < i + remaining → ∃ c, respond j = HttpOutcome.status c ∧
        400 ≤ c ∧ c < 500 ∧ c ≠ 429) →
      safe_get_go respond i remaining =
        (GetResult.failure, (List.range' i remaining).map backoff) := by
    intro remaining
    induction remaining with
    | zero => intro i _; rfl
    | succ n ih =>
      intro i hreq
      obtain ⟨c, hc, h400, h500, h429⟩ := hreq i (Nat.le_refl i) (by omega)
      have hretry : retryStatus c = false := by
        simp only [retryStatus, Bool.or_eq_false_iff, beq_eq_false_iff_ne, ne_eq]
        omega
      have hraise : raiseForStatus c = true := by
        simp only [raiseForStatus, Bool.and_eq_true, decide_eq_true_eq]
        omega
      have hrec := ih (i + 1) (fun j hj hj2 => hreq j (by omega) (by omega))
      simp only [safe_get_go, hc, hretry, Bool.false_eq_true, if_false, hraise, if_true,
        hrec, List.range'_succ, List.map_cons]
  have := main retries 0 (fun j hj hj2 => h j (by omega))
  simp only [safe_get, this, List.range_eq_range']

/-- Witness for C3 amended: two attempts against a constant 404 yield
failure after sleeping 1 then 2 seconds. -/
theorem C3_amended_4xx_consumes_all_retries_witness :
    safe_get (fun _ => HttpOutcome.status 404) 2 =
      (GetResult.failure, (List.range 2).map backoff) :=
  C3_amended_4xx_consumes_all_retries (fun _ => HttpOutcome.status 404) 2
    (fun i _ => ⟨404, rfl, by omega, by omega, by omega⟩)

/-! ## Claim C6 -/

/-- C6: with HTTP 429 on the first two attempts and HTTP 200 on the
third, `safe_get` returns the successful response from the third
attempt (index 2), never raising on the 429 responses, after sleeping
exactly twice with the backoff durations `min(60, 2 ** 0)` and
`min(60, 2 ** 1)`. -/
theorem C6_rate_limit_backoff_then_success (respond : Nat → HttpOutcome)
    (h0 : respond 0 = HttpOutcome.status 429)
    (h1 : respond 1 = HttpOutcome.status 429)
    (h2 : respond 2 = HttpOutcome.status 200) :
    safe_get respond 6 = (GetResult.success 2 200, [min 60 (2 ^ 0), min 60 (2 ^ 1)]) := by
  have e429 : retryStatus 429 = true := rfl
  have e200r : retryStatus 200 = false := rfl
  have e200s : raiseForStatus 200 = false := rfl
  simp only [safe_get, safe_get_go, h0, h1, h2, e429, e200r, e200s, Bool.false_eq_true,
    if_true, if_false, backoff]

/-- Witness for C6 at a concrete response stream. -/
theorem C6_rate_limit_backoff_then_success_witness :
    safe_get
        (fun i => if i < 2 then HttpOutcome.status 429 else HttpOutcome.status 200) 6 =
      (GetResult.success 2 200, [min 60 (2 ^ 0), min 60 (2 ^ 1)]) :=
  C6_rate_limit_backoff_then_success
    (fun i => if i < 2 then HttpOutcome.status 429 else HttpOutcome.status 200)
    rfl rfl rfl

/-! ## Claim C7 -/

/-- C7: a source announcing 3 pages and serving three pages of 10 rows
each yields exactly those 30 rows in page order; moreover the loop
stops with the accumulated rows as a normal result (end-of-data, not an
error) when the response is not the expected two-part envelope, when no
page count is reported and the page is empty, and when the reported
page count is reached. -/
theorem C7_pagination_three_pages_and_termination :
    (∀ (respond : Nat → WBPayload) (r1 r2 r3 : List Nat),
      respond 1 = WBPayload.envelope 3 r1 →
      respond 2 = WBPayload.envelope 3 r2 →
      respond 3 = WBPayload.envelope 3 r3 →
      r1.length = 10 → r2.length = 10 → r3.length = 10 →
      worldbank_fetch_all_pages respond 3 = some (r1 ++ r2 ++ r3) ∧
        (r1 ++ r2 ++ r3).length = 30) ∧
    (∀ (respond : Nat → WBPayload) (fuel page : Nat) (acc : List Nat),
      respond page = WBPayload.invalid →
      worldbank_fetch_all_pages_go respond (fuel + 1) page acc = some acc) ∧
    (∀ (respond : Nat → WBPayload) (fuel page : Nat) (acc : List Nat),
      respond page = WBPayload.envelope 0 [] →
      worldbank_fetch_all_pages_go respond (fuel + 1) page acc = some acc) ∧
    (∀ (respond : Nat → WBPayload) (fuel page pages : Nat) (acc rows : List Nat),
      respond page = WBPayload.envelope pages rows → pages ≠ 0 → pages ≤ page →
      worldbank_fetch_all_pages_go respond (fuel + 1) page acc = some (acc ++ rows)) := by
  refine ⟨?_, ?_, ?_, ?_⟩
  · intro respond r1 r2 r3 h1 h2 h3 l1 l2 l3
    constructor
    · show worldbank_fetch_all_pages_go respond 3 1 [] = some (r1 ++ r2 ++ r3)
      rw [worldbank_fetch_all_pages_go, h1]
      dsimp only
      rw [if_neg (by omega), if_neg (by simp)]
      rw [worldbank_fetch_all_pages_go, h2]
      dsimp only
      rw [if_neg (by omega), if_neg (by simp)]
      rw [worldbank_fetch_all_pages_go, h3]
      dsimp only
      rw [if_pos (by omega)]
      simp
    · simp [l1, l2, l3]
  · intro respond fuel page acc h
    rw [worldbank_fetch_all_pages_go, h]
  · intro respond fuel page acc h
    rw [worldbank_fetch_all_pages_go, h]
    dsimp only
    rw [if_neg (by simp), if_pos ⟨rfl, rfl⟩]
    simp
  · intro respond fuel page pages acc rows h hp hle
    rw [worldbank_fetch_all_pages_go, h]
    dsimp only
    rw [if_pos ⟨hp, hle⟩]

/-- Witness for C7: the three-page scenario at concrete rows. -/
theorem C7_pagination_three_pages_and_termination_witness :
    worldbank_fetch_all_pages
        (fun p => if p = 1 then WBPayload.envelope 3 (List.range 10)
          else if p = 2 then WBPayload.envelope 3 (List.range 10)
          else WBPayload.envelope 3 (List.range 10)) 3 =
      some (List.range 10 ++ List.range 10 ++ List.range 10) :=
  (C7_pagination_three_pages_and_termination.1
    (fun p => if p = 1 then WBPayload.envelope 3 (List.range 10)
      else if p = 2 then WBPayload.envelope 3 (List.range 10)
      else WBPayload.envelope 3 (List.range 10))
    (List.range 10) (List.range 10) (List.range 10)
    rfl rfl rfl rfl rfl rfl).1

/-! ## Claim C4 -/

/-- Columns after one merge step. -/
theorem merge_step_cols (acc : List String × List MergedRow)
    (nf : String × List Reduced) :
    (merge_step acc nf).1 = acc.1 ++ frameCols nf := by
  by_cases h : nf.2.length > 0
  · simp [merge_step, frameCols, h]
  · simp [merge_step, frameCols, h]

/-- Row count after one merge step. -/
theorem merge_step_len (acc : List String × List MergedRow)
    (nf : String × List Reduced) :
    (merge_step acc nf).2.length = acc.2.length := by
  by_cases h : nf.2.length > 0
  · simp [merge_step, h]
  · simp [merge_step, h]

/-- Columns of the folded merge: the starting columns followed by each
surviving frame's contribution, in frame order. -/
theorem merge_foldl_cols (frames : List (String × List Reduced)) :
    ∀ acc : List String × List MergedRow,
      (frames.foldl merge_step acc).1 = acc.1 ++ frames.flatMap frameCols := by
  induction frames with
  | nil => intro acc; simp
  | cons nf rest ih =>
    intro acc
    rw [List.foldl_cons, ih, merge_step_cols, List.flatMap_cons, List.append_assoc]

/-- The folded merge preserves the number of rows. -/
theorem merge_foldl_len (frames : List (String × List Reduced)) :
    ∀ acc : List String × List MergedRow,
      (frames.foldl merge_step acc).2.length = acc.2.length := by
  induction frames with
  | nil => intro acc; simp
  | cons nf rest ih =>
    intro acc
    rw [List.foldl_cons, ih, merge_step_len]

/-- C4 counterexample: with one master row and the single indicator
"population" whose fetch failed, the merged dataset does not contain a
"population" column at all — the empty substitute frame is skipped by
the `frame.shape[0] > 0` guard, so no null-filled columns appear — even
though the run continues and the master row is preserved. -/
theorem C4_counterexample_failed_indicator_columns_absent :
    "population" ∉ (merge_frames [{ iso3 := "USA", country := some "United States" }]
        (indicator_frames [("population", Except.error ())])).1 ∧
    (merge_frames [{ iso3 := "USA", country := some "United States" }]
        (indicator_frames [("population", Except.error ())])).2.length = 1 := by
  constructor
  · intro h
    rw [show (merge_frames [{ iso3 := "USA", country := some "United States" }]
        (indicator_frames [("population", Except.error ())])).1 = masterCols from rfl] at h
    simp [masterCols] at h
  · rfl

/-- C4 amended: a failed indicator fetch is caught per indicator and an
empty frame is substituted, the run continues and every master row is
still merged, but the merge loop skips zero-row frames, so the failed
indicator's value and year columns are absent from the merged dataset
rather than present and null-filled. -/
theorem C4_amended_failed_indicator_columns_absent (master : List MasterRow)
    (inds : List (String × Except Unit (List Obs))) (name : String)
    (hmem : (name, (Except.error () : Except Unit (List Obs))) ∈ inds)
    (hall : ∀ p ∈ inds, p.1 = name → p.2 = Except.error ())
    (hmc : name ∉ masterCols)
    (hy : ∀ p ∈ inds, name ≠ p.1 ++ "_year") :
    name ∉ (merge_frames master (indicator_frames inds)).1 ∧
    (merge_frames master (indicator_frames inds)).2.length = master.length := by
  constructor
  · intro hmemcols
    rw [merge_frames, merge_foldl_cols] at hmemcols
    rcases List.mem_append.1 hmemcols with hml | hfl
    · exact hmc hml
    · rcases List.mem_flatMap.1 hfl with ⟨nf, hnf, hname⟩
      rcases List.mem_map.1 hnf with ⟨p, hp, rfl⟩
      rw [frameCols] at hname
      by_cases hlen : (match p.2 with
          | Except.ok obs => latest_by_country obs
          | Except.error _ => []).length > 0
      · rw [if_pos hlen] at hname
        rcases List.mem_cons.1 hname with h1 | h2
        · have hperr := hall p hp h1.symm
          rw [hperr] at hlen
          simp at hlen
        · rcases List.mem_singleton.1 h2 with h3
          exact hy p hp h3
      · rw [if_neg hlen] at hname
        simp at hname
  · rw [merge_frames, merge_foldl_len]
    simp

/-- Witness for C4 amended at the concrete failing scenario. -/
theorem C4_amended_failed_indicator_columns_absent_witness :
    "population" ∉ (merge_frames [{ iso3 := "USA", country := some "United States" }]
        (indicator_frames [("population", Except.error ()),
          ("gdp_usd", Except.ok [{ iso3 := "USA", year := some 2021, value := some 330 }])])).1 ∧
    (merge_frames [{ iso3 := "USA", country := some "United States" }]
        (indicator_frames [("population", Except.error ()),
          ("gdp_usd", Except.ok [{ iso3 := "USA", year := some 2021, value := some 330 }])])).2.length = 1 :=
  C4_amended_failed_indicator_columns_absent
    [{ iso3 := "USA", country := some "United States" }]
    [("population", Except.error ()),
     ("gdp_usd", Except.ok [{ iso3 := "USA", year := some 2021, value := some 330 }])]
    "population" (List.mem_cons_self _ _)
    (by
      intro p hp hname
      rcases List.mem_cons.1 hp with rfl | hp2
      · rfl
      · rcases List.mem_singleton.1 hp2 with rfl
        exact absurd (show ("gdp_usd" : String) = "population" from hname) (by decide))
    (by decide)
    (by
      intro p hp
      rcases List.mem_cons.1 hp with rfl | hp2
      · exact (by decide : ("population" : String) ≠ "population" ++ "_year")
      · rcases List.mem_singleton.1 hp2 with rfl
        exact (by decide : ("population" : String) ≠ "gdp_usd" ++ "_year"))

/-! ## Claim C5 -/

/-- C5 counterexample: on a frame with exactly two rows sharing one
country code, the unique_iso3 check fails but reports duplicate count
1, not 2 — `Series.duplicated()` does not mark the first occurrence, so
`duplicated().sum()` over two equal codes is 1. -/
theorem C5_counterexample_duplicate_count_is_one :
    (quality_checks twoRowFrame).find? (fun c => c.name == "unique_iso3") =
      some { name := "unique_iso3", passed := false, details := Sum.inl 1 } ∧
    (∀ c ∈ quality_checks twoRowFrame,
      c.name = "unique_iso3" → c.details ≠ Sum.inl 2) := by
  constructor
  · rfl
  · decide

/-- C5 amended: on every frame with exactly two rows sharing one
country code, the unique_iso3 check fails with duplicate count 1 (the
count of occurrences beyond the first), and the overall verdict is
false. -/
theorem C5_amended_two_duplicate_rows (df : QFrame)
    (r1 r2 : List (String × Option Cell))
    (hrows : df.rows = [r1, r2])
    (hcol : df.cols.contains "iso3" = true)
    (heq : getCell r1 "iso3" = getCell r2 "iso3") :
    (quality_checks df).find? (fun c => c.name == "unique_iso3") =
      some { name := "unique_iso3", passed := false, details := Sum.inl 1 } ∧
    (run_quality_checks df).1 = false := by
  have hdup : dupCount [] (colValues df "iso3") = 1 := by
    simp only [colValues, hrows, List.map]
    rw [← heq]
    simp [dupCount]
  have hmemcol : "iso3" ∈ df.cols := by simpa using hcol
  constructor
  · simp [quality_checks, hmemcol, hdup]
  · simp [run_quality_checks, quality_checks, hmemcol, hdup]

/-- Witness for C5 amended at the concrete two-row frame. -/
theorem C5_amended_two_duplicate_rows_witness :
    (quality_checks twoRowFrame).find? (fun c => c.name == "unique_iso3") =
      some { name := "unique_iso3", passed := false, details := Sum.inl 1 } ∧
    (run_quality_checks twoRowFrame).1 = false :=
  C5_amended_two_duplicate_rows twoRowFrame
    [("iso3", some (Cell.str "USA"))] [("iso3", some (Cell.str "USA"))]
    rfl rfl rfl

/-! ## Claim C9 -/

/-- C9: the overall verdict is the conjunction of all individual
checks; the missingness-report entry always passes; and the missingness
report lists the ten (or fewer) columns with the highest fraction of
missing rows, in descending order of missing rate — on a non-empty
frame it has min 10 (number of columns) entries, its rates are
descending, and every unreported column has a rate at most every
reported one. -/
theorem C9_quality_gate_verdict_and_missingness (df : QFrame)
    (hne : df.rows ≠ []) :
    ((run_quality_checks df).1 = true ↔ ∀ c ∈ quality_checks df, c.passed = true) ∧
    (∀ c ∈ quality_checks df,
      c.name = "missingness_report_generated" → c.passed = true) ∧
    ((run_quality_checks df).2.length = min 10 df.cols.length) ∧
    (List.Pairwise (fun a b : String × ℚ => b.2 ≤ a.2) (run_quality_checks df).2) ∧
    (∀ p ∈ (run_quality_checks df).2, ∀ c ∈ df.cols,
      c ∉ (run_quality_checks df).2.map Prod.fst → missRate df c ≤ p.2) := by
  have htrans : ∀ a b c : String × ℚ,
      (decide (b.2 ≤ a.2)) = true → (decide (c.2 ≤ b.2)) = true →
      (decide (c.2 ≤ a.2)) = true := by
    intro a b c hab hbc
    simp only [decide_eq_true_eq] at *
    exact le_trans hbc hab
  have htotal : ∀ a b : String × ℚ,
      ((decide (b.2 ≤ a.2)) || (decide (a.2 ≤ b.2))) = true := by
    intro a b
    rcases le_total a.2 b.2 with h | h <;> simp [h]
  have hsorted := List.sorted_mergeSort htrans htotal
    (df.cols.map (fun c => (c, missRate df c)))
  refine ⟨?_, ?_, ?_, ?_, ?_⟩
  · simp [run_quality_checks, List.all_eq_true]
  · intro ch hch hname
    rcases List.mem_append.1 hch with hbase | hmapped
    · rcases List.mem_cons.1 hbase with rfl | hbase2
      · exact absurd
          (show ("unique_iso3" : String) = "missingness_report_generated" from hname)
          (by decide)
      · rcases List.mem_singleton.1 hbase2 with rfl
        rfl
    · rcases List.mem_map.1 hmapped with ⟨c, hc, rfl⟩
      have hcind : c ∈ indicatorColumns := List.mem_of_mem_filter hc
      simp only [indicatorColumns, List.mem_cons, List.not_mem_nil, or_false] at hcind
      rcases hcind with rfl | rfl | rfl | rfl
      · exact absurd
          (show ("population" ++ "_non_negative" : String) =
            "missingness_report_generated" from hname) (by decide)
      · exact absurd
          (show ("gdp_usd" ++ "_non_negative" : String) =
            "missingness_report_generated" from hname) (by decide)
      · exact absurd
          (show ("gdp_per_capita_usd" ++ "_non_negative" : String) =
            "missingness_report_generated" from hname) (by decide)
      · exact absurd
          (show ("life_expectancy" ++ "_non_negative" : String) =
            "missingness_report_generated" from hname) (by decide)
  · simp [run_quality_checks, topMissing, List.length_take, List.length_mergeSort,
      List.length_map]
  · have hpw : List.Pairwise
        (fun a b : String × ℚ => (decide (b.2 ≤ a.2)) = true)
        (topMissing df) :=
      List.Pairwise.sublist (List.take_sublist 10 _) hsorted
    exact hpw.imp (fun h => of_decide_eq_true h)
  · intro p hp c hc hnot
    set L := (df.cols.map (fun c => (c, missRate df c))).mergeSort
      (fun a b => decide (b.2 ≤ a.2)) with hL
    have hq : (c, missRate df c) ∈ L := by
      rw [hL]
      exact (List.mergeSort_perm _ _).mem_iff.2 (List.mem_map.2 ⟨c, hc, rfl⟩)
    have hsplit : L = L.take 10 ++ L.drop 10 := (List.take_append_drop 10 L).symm
    have hpw2 : List.Pairwise
        (fun a b : String × ℚ => (decide (b.2 ≤ a.2)) = true)
        (L.take 10 ++ L.drop 10) := by
      rw [← hsplit]; exact hsorted
    rcases List.mem_append.1 (hsplit ▸ hq) with htake | hdrop
    · exact absurd (List.mem_map.2 ⟨(c, missRate df c), htake, rfl⟩) hnot
    · have := (List.pairwise_append.1 hpw2).2.2 p hp (c, missRate df c) hdrop
      exact of_decide_eq_true this

/-- Witness for C9 at the concrete two-row frame. -/
theorem C9_quality_gate_verdict_and_missingness_witness :
    (run_quality_checks twoRowFrame).2.length = min 10 twoRowFrame.cols.length :=
  (C9_quality_gate_verdict_and_missingness twoRowFrame (by decide)).2.2.1

/-! ## Claims C1 and C10: ordering lemmas for the reducer -/

/-- The year ordering is transitive. -/
theorem yearDescLe_trans (a b c : Option Int)
    (hab : yearDescLe a b = true) (hbc : yearDescLe b c = true) :
    yearDescLe a c = true := by
  cases a <;> cases b <;> cases c <;> simp [yearDescLe] at * <;> omega

/-- The year ordering is total. -/
theorem yearDescLe_total (a b : Option Int) :
    (yearDescLe a b || yearDescLe b a) = true := by
  cases a <;> cases b <;> simp [yearDescLe] <;> omega

/-- The row ordering is transitive. -/
theorem obsLe_trans (a b c : Obs)
    (hab : obsLe a b = true) (hbc : obsLe b c = true) : obsLe a c = true := by
  unfold obsLe at *
  by_cases h1 : a.iso3 = b.iso3 <;> by_cases h2 : b.iso3 = c.iso3
  · rw [if_pos h1] at hab
    rw [if_pos h2] at hbc
    rw [if_pos (h1.trans h2)]
    exact yearDescLe_trans _ _ _ hab hbc
  · rw [if_neg h2] at hbc
    have hlt : b.iso3 < c.iso3 := of_decide_eq_true hbc
    have hlt2 : a.iso3 < c.iso3 := h1 ▸ hlt
    rw [if_neg (ne_of_lt hlt2)]
    exact decide_eq_true hlt2
  · rw [if_neg h1] at hab
    have hlt : a.iso3 < b.iso3 := of_decide_eq_true hab
    have hlt2 : a.iso3 < c.iso3 := h2 ▸ hlt
    rw [if_neg (ne_of_lt hlt2)]
    exact decide_eq_true hlt2
  · rw [if_neg h1] at hab
    rw [if_neg h2] at hbc
    have hlt : a.iso3 < c.iso3 :=
      lt_trans (of_decide_eq_true hab) (of_decide_eq_true hbc)
    rw [if_neg (ne_of_lt hlt)]
    exact decide_eq_true hlt

/-- The row ordering is total. -/
theorem obsLe_total (a b : Obs) : (obsLe a b || obsLe b a) = true := by
  unfold obsLe
  by_cases h : a.iso3 = b.iso3
  · rw [if_pos h, if_pos h.symm]
    exact yearDescLe_total _ _
  · rw [if_neg h, if_neg (Ne.symm h)]
    rcases lt_or_gt_of_ne h with hlt | hgt
    · simp [hlt]
    · simp [hgt]

/-- The sorted frame is pairwise ordered. -/
theorem lbc_sorted_pairwise (obs : List Obs) :
    List.Pairwise (fun a b => obsLe a b = true) (lbc_sorted obs) :=
  List.sorted_mergeSort obsLe_trans obsLe_total _

/-- Sorting permutes the value-bearing rows. -/
theorem lbc_sorted_perm (obs : List Obs) :
    (lbc_sorted obs).Perm (obs.filter (fun o => o.value.isSome)) :=
  List.mergeSort_perm _ _

/-- Every row of a group carries the group key. -/
theorem lbc_group_iso3 (obs : List Obs) (c : String) :
    ∀ o ∈ lbc_group obs c, o.iso3 = c := by
  intro o ho
  have h := (List.mem_filter.1 ho).2
  simpa using h

/-- Every row of a group carries a present value. -/
theorem lbc_group_value_isSome (obs : List Obs) (c : String) :
    ∀ o ∈ lbc_group obs c, o.value.isSome = true := by
  intro o ho
  have h1 : o ∈ lbc_sorted obs := List.mem_of_mem_filter ho
  have h2 : o ∈ obs.filter (fun o => o.value.isSome) :=
    (lbc_sorted_perm obs).mem_iff.1 h1
  exact (List.mem_filter.1 h2).2

/-- A group permutes the input rows with that key and a present
value. -/
theorem lbc_group_perm (obs : List Obs) (c : String) :
    (lbc_group obs c).Perm
      (obs.filter (fun o => o.iso3 == c && o.value.isSome)) := by
  have h1 : (lbc_group obs c).Perm
      ((obs.filter (fun o => o.value.isSome)).filter (fun o => o.iso3 == c)) :=
    List.Perm.filter _ (lbc_sorted_perm obs)
  rw [List.filter_filter] at h1
  exact h1

/-- The present years of a group, read top to bottom, are
descending. -/
theorem lbc_group_years_sorted (obs : List Obs) (c : String) :
    List.Pairwise (fun x y : Int => y ≤ x)
      ((lbc_group obs c).filterMap (fun o => o.year)) := by
  rw [List.pairwise_filterMap]
  refine List.Pairwise.imp_of_mem ?_
    (List.Pairwise.sublist (List.filter_sublist _) (lbc_sorted_pairwise obs))
  intro a b ha hb hle x hx y hy
  have hia : a.iso3 = c := lbc_group_iso3 obs c a ha
  have hib : b.iso3 = c := lbc_group_iso3 obs c b hb
  have hy2 : yearDescLe a.year b.year = true := by
    rw [obsLe, if_pos (hia.trans hib.symm)] at hle
    exact hle
  cases hay : a.year with
  | none =>
    rw [hay] at hx
    cases hx
  | some x2 =>
    cases hby : b.year with
    | none =>
      rw [hby] at hy
      cases hy
    | some y2 =>
      rw [hay, hby] at hy2
      rw [hay] at hx
      rw [hby] at hy
      cases hx
      cases hy
      exact of_decide_eq_true hy2

/-- The head of a descending list of integers is its maximum. -/
theorem head_eq_maximum_of_sorted (l : List Int)
    (h : List.Pairwise (fun x y : Int => y ≤ x) l) :
    l.head? = l.maximum := by
  cases l with
  | nil => rfl
  | cons a t =>
    have hall : ∀ b ∈ t, b ≤ a := (List.pairwise_cons.1 h).1
    have hle : t.maximum ≤ (a : WithBot Int) :=
      List.maximum_le_of_forall_le (fun b hb => by exact_mod_cast hall b hb)
    rw [List.maximum_cons, sup_eq_left.2 hle]
    rfl

/-- The maximum of a list of integers is invariant under
permutation. -/
theorem maximum_of_perm (l m : List Int) (h : l.Perm m) :
    l.maximum = m.maximum := by
  apply le_antisymm
  · exact List.maximum_le_of_forall_le
      (fun a ha => List.le_maximum_of_mem' (h.mem_iff.1 ha))
  · exact List.maximum_le_of_forall_le
      (fun a ha => List.le_maximum_of_mem' (h.mem_iff.2 ha))

/-- The year cell produced for a group is the maximum year over the
input observations with that key and a present value. -/
theorem lbc_year_eq_maximum (obs : List Obs) (c : String) :
    ((lbc_group obs c).filterMap (fun o => o.year)).head? =
      ((obs.filter (fun o => o.iso3 == c && o.value.isSome)).filterMap
        (fun o => o.year)).maximum := by
  rw [head_eq_maximum_of_sorted _ (lbc_group_years_sorted obs c)]
  exact maximum_of_perm _ _ (List.Perm.filterMap _ (lbc_group_perm obs c))

/-- In a list with no duplicates, exactly one entry equals a given
member. -/
theorem countP_eq_one_of_nodup_mem {c : String} :
    ∀ {l : List String}, l.Nodup → c ∈ l →
      l.countP (fun x => x == c) = 1 := by
  intro l
  induction l with
  | nil => intro _ hc; cases hc
  | cons a t ih =>
    intro hn hc
    rcases List.mem_cons.1 hc with rfl | hct
    · have hz : t.countP (fun x => x == c) = 0 := by
        rw [List.countP_eq_zero]
        intro x hx hxa
        rw [beq_iff_eq] at hxa
        exact (List.nodup_cons.1 hn).1 (hxa ▸ hx)
      rw [List.countP_cons, hz]
      simp
    · have ha : ((a == c) : Bool) = false := by
        rw [beq_eq_false_iff_ne]
        intro hac
        exact (List.nodup_cons.1 hn).1 (hac ▸ hct)
      rw [List.countP_cons, ih (List.nodup_cons.1 hn).2 hct, ha]
      simp

/-- A non-empty list has a present head. -/
theorem head_isSome_of_ne_nil {l : List Int} (h : l ≠ []) :
    l.head?.isSome = true := by
  cases l with
  | nil => exact absurd rfl h
  | cons a t => rfl

/-- C1: the reducer emits at most one row per country code, and the
year carried by each row is the maximum year among the observations of
that code with a present value (so, when all such observations lack a
year, the carried year is missing, matching an empty maximum). -/
theorem C1_latest_value_reducer (obs : List Obs) :
    ((latest_by_country obs).map (fun r => r.iso3)).Nodup ∧
    ∀ r ∈ latest_by_country obs,
      r.year = ((obs.filter (fun o => o.iso3 == r.iso3 && o.value.isSome)).filterMap
        (fun o => o.year)).maximum := by
  constructor
  · have heq : (latest_by_country obs).map (fun r => r.iso3) =
        ((lbc_sorted obs).map (fun o => o.iso3)).dedup := by
      rw [latest_by_country, List.map_map]
      exact List.map_id _
    rw [heq]
    exact List.nodup_dedup _
  · intro r hr
    rw [latest_by_country] at hr
    rcases List.mem_map.1 hr with ⟨c, hc, rfl⟩
    exact lbc_year_eq_maximum obs c

/-- On a single value-bearing observation the reducer emits exactly its
one row. -/
theorem latest_by_country_singleton (o : Obs) (v : Int) (hv : o.value = some v) :
    latest_by_country [o] = [{ iso3 := o.iso3, value := some v, year := o.year }] := by
  have hfil : List.filter (fun o => o.value.isSome) [o] = [o] := by
    simp [List.filter, hv]
  have hsort : lbc_sorted [o] = [o] := by
    rw [lbc_sorted, hfil, List.mergeSort_singleton]
  have hgroup : lbc_group [o] o.iso3 = [o] := by
    rw [lbc_group, hsort]
    simp [List.filter]
  have hval : (List.filterMap (fun o => o.value) [o]).head? = some v := by
    simp [hv]
  have hyear : (List.filterMap (fun o => o.year) [o]).head? = o.year := by
    cases hy : o.year with
    | none => simp [hy]
    | some y => simp [hy]
  rw [latest_by_country, hsort]
  simp only [List.map_cons, List.map_nil]
  rw [List.dedup_cons_of_not_mem (by simp), List.dedup_nil]
  simp only [List.map_cons, List.map_nil]
  rw [hgroup, hval, hyear]

/-- Witness for C1: one observation reduces to a single row whose year
is the maximum year 2021. -/
theorem C1_latest_value_reducer_witness :
    ((latest_by_country [{ iso3 := "USA", year := some 2021, value := some 330 }]).map
        (fun r => r.iso3)).Nodup ∧
    ({ iso3 := "USA", value := some 330, year := some 2021 } : Reduced).year =
      (([{ iso3 := "USA", year := some 2021, value := some 330 }].filter
            (fun o : Obs => o.iso3 == "USA" && o.value.isSome)).filterMap
        (fun o => o.year)).maximum :=
  ⟨(C1_latest_value_reducer
      [{ iso3 := "USA", year := some 2021, value := some 330 }]).1,
    (C1_latest_value_reducer
      [{ iso3 := "USA", year := some 2021, value := some 330 }]).2
      { iso3 := "USA", value := some 330, year := some 2021 }
      (by
        rw [latest_by_country_singleton
          { iso3 := "USA", year := some 2021, value := some 330 } 330 rfl]
        exact List.mem_singleton.2 rfl)⟩

/-- C10: observations with a present value are kept even when their
year is missing: a code with some value-bearing observation yields
exactly one output row, that row always carries a present value, and
its year is missing exactly when every value-bearing observation of
that code lacks a year. -/
theorem C10_year_null_retention (obs : List Obs) (c : String)
    (h : ∃ o ∈ obs, o.iso3 = c ∧ o.value.isSome = true) :
    ((latest_by_country obs).countP (fun r => r.iso3 == c) = 1) ∧
    (∀ r ∈ latest_by_country obs, r.iso3 = c →
      r.value.isSome = true ∧
      (r.year = none ↔
        ∀ o ∈ obs, o.iso3 = c → o.value.isSome = true → o.year = none)) := by
  obtain ⟨o, ho, hoc, hov⟩ := h
  have hofilter : o ∈ obs.filter (fun o => o.value.isSome) :=
    List.mem_filter.2 ⟨ho, hov⟩
  have hos : o ∈ lbc_sorted obs := (lbc_sorted_perm obs).mem_iff.2 hofilter
  have hckeys : c ∈ ((lbc_sorted obs).map (fun o => o.iso3)).dedup :=
    List.mem_dedup.2 (List.mem_map.2 ⟨o, hos, hoc⟩)
  constructor
  · have h1 : (latest_by_country obs).countP (fun r => r.iso3 == c) =
        (((lbc_sorted obs).map (fun o => o.iso3)).dedup).countP
          (fun x => x == c) := by
      rw [latest_by_country, List.countP_map]
      rfl
    rw [h1]
    exact countP_eq_one_of_nodup_mem (List.nodup_dedup _) hckeys
  · intro r hr hrc
    rw [latest_by_country] at hr
    rcases List.mem_map.1 hr with ⟨c2, hc2, rfl⟩
    have hcc : c2 = c := hrc
    subst hcc
    have hgo : o ∈ lbc_group obs c2 :=
      List.mem_filter.2 ⟨hos, by simp [hoc]⟩
    constructor
    · apply head_isSome_of_ne_nil
      intro hnil
      have hnone := List.filterMap_eq_nil.1 hnil o hgo
      rw [hnone] at hov
      cases hov
    · show ((lbc_group obs c2).filterMap (fun o => o.year)).head? = none ↔ _
      rw [lbc_year_eq_maximum obs c2]
      rw [List.maximum_eq_none, List.filterMap_eq_nil]
      constructor
      · intro hall o2 ho2 hc2b hv2
        exact hall o2 (List.mem_filter.2 ⟨ho2, by simp [hc2b, hv2]⟩)
      · intro hall o2 ho2
        have hcond := (List.mem_filter.1 ho2).2
        simp only [Bool.and_eq_true, beq_iff_eq] at hcond
        exact hall o2 (List.mem_of_mem_filter ho2) hcond.1 hcond.2

/-- Witness for C10: one observation with a present value and a missing
year yields exactly one output row for its code. -/
theorem C10_year_null_retention_witness :
    (latest_by_country [{ iso3 := "ABW", year := none, value := some 5 }]).countP
      (fun r => r.iso3 == "ABW") = 1 :=
  (C10_year_null_retention [{ iso3 := "ABW", year := none, value := some 5 }] "ABW"
    ⟨{ iso3 := "ABW", year := none, value := some 5 },
      List.mem_singleton.2 rfl, rfl, rfl⟩).1

/-! ## Claim C8 -/

/-- Deduplication only drops rows. -/
theorem dedupByKey_subset {α : Type} (key : α → String) :
    ∀ (l : List α) (seen : List String) (a : α),
      a ∈ dedupByKey key seen l → a ∈ l := by
  intro l
  induction l with
  | nil =>
    intro seen a h
    simp only [dedupByKey] at h
    cases h
  | cons b t ih =>
    intro seen a h
    simp only [dedupByKey] at h
    by_cases hs : seen.contains (key b)
    · rw [if_pos hs] at h
      exact List.mem_cons_of_mem _ (ih _ a h)
    · rw [if_neg hs] at h
      rcases List.mem_cons.1 h with rfl | h2
      · exact List.mem_cons_self _ _
      · exact List.mem_cons_of_mem _ (ih _ a h2)

/-- After deduplication the keys are pairwise distinct, and none of
them was in the seen set. -/
theorem dedupByKey_nodup {α : Type} (key : α → String) :
    ∀ (l : List α) (seen : List String),
      ((dedupByKey key seen l).map key).Nodup ∧
      ∀ a ∈ dedupByKey key seen l, key a ∉ seen := by
  intro l
  induction l with
  | nil =>
    intro seen
    constructor
    · simp [dedupByKey]
    · intro a ha
      simp only [dedupByKey] at ha
      cases ha
  | cons b t ih =>
    intro seen
    by_cases hs : seen.contains (key b)
    · constructor
      · simpa only [dedupByKey, if_pos hs] using (ih seen).1
      · intro a ha
        rw [dedupByKey, if_pos hs] at ha
        exact (ih seen).2 a ha
    · obtain ⟨hnd, hnotin⟩ := ih (key b :: seen)
      constructor
      · rw [dedupByKey, if_neg hs, List.map_cons, List.nodup_cons]
        refine ⟨?_, hnd⟩
        intro hmem
        rcases List.mem_map.1 hmem with ⟨a, ha, hkey⟩
        exact hnotin a ha (hkey ▸ List.mem_cons_self _ _)
      · intro a ha
        rw [dedupByKey, if_neg hs] at ha
        rcases List.mem_cons.1 ha with rfl | h2
        · intro hmem
          exact hs (by simpa using hmem)
        · intro hmem
          exact hnotin a h2 (List.mem_cons_of_mem _ hmem)

/-- Looking a key up after deduplication finds the first row with that
key in the original order, provided the key was not already seen. -/
theorem dedupByKey_find {α : Type} (key : α → String) :
    ∀ (l : List α) (seen : List String) (c : String), c ∉ seen →
      (dedupByKey key seen l).find? (fun a => key a == c) =
        l.find? (fun a => key a == c) := by
  intro l
  induction l with
  | nil => intro seen c _; simp [dedupByKey]
  | cons b t ih =>
    intro seen c hc
    by_cases hs : seen.contains (key b)
    · rw [dedupByKey, if_pos hs]
      have hkb : ((key b == c) : Bool) = false := by
        rw [beq_eq_false_iff_ne]
        intro h
        have hmem : key b ∈ seen := by simpa using hs
        exact hc (h ▸ hmem)
      rw [List.find?_cons, hkb, ih seen c hc]
    · rw [dedupByKey, if_neg hs]
      by_cases hkc : ((key b == c) : Bool) = true
      · rw [List.find?_cons, List.find?_cons, hkc]
      · have hkc2 : ((key b == c) : Bool) = false := by
          cases h2 : ((key b == c) : Bool) with
          | false => rfl
          | true => exact absurd h2 hkc
        have hc2 : c ∉ (key b :: seen) := by
          intro h
          rcases List.mem_cons.1 h with rfl | h2
          · rw [beq_eq_false_iff_ne] at hkc2
            exact hkc2 rfl
          · exact hc h2
        rw [List.find?_cons, List.find?_cons, hkc2, ih (key b :: seen) c hc2]

/-- C8: both adapter outputs have no row whose country code is missing
or not exactly three characters long (the output code column is a
definite string, made of exactly three characters by the length
filter); at most one row per code; and when several normalized rows
share a code, the retained row is the first in input order — looking
any code up in the output finds the same row as in the pre-dedup
normalized rows. -/
theorem C8_adapter_code_filter_dedup (wbRows : List WBRow) (rcRows : List RCRow) :
    (∀ r ∈ fetch_worldbank_countries wbRows, r.iso3.length = 3) ∧
    ((fetch_worldbank_countries wbRows).map (fun r => r.iso3)).Nodup ∧
    (∀ c, (fetch_worldbank_countries wbRows).find? (fun r => r.iso3 == c) =
      (wb_normalized wbRows).find? (fun r => r.iso3 == c)) ∧
    (∀ r ∈ fetch_restcountries rcRows, r.iso3.length = 3) ∧
    ((fetch_restcountries rcRows).map (fun r => r.iso3)).Nodup ∧
    (∀ c, (fetch_restcountries rcRows).find? (fun r => r.iso3 == c) =
      (rc_normalized rcRows).find? (fun r => r.iso3 == c)) := by
  refine ⟨?_, ?_, ?_, ?_, ?_, ?_⟩
  · intro r hr
    have h1 : r ∈ wb_normalized wbRows := dedupByKey_subset _ _ _ _ hr
    have h2 := (List.mem_filter.1 h1).2
    simpa using h2
  · exact (dedupByKey_nodup _ _ _).1
  · intro c
    exact dedupByKey_find _ _ _ c (List.not_mem_nil c)
  · intro r hr
    have h1 : r ∈ rc_normalized rcRows := dedupByKey_subset _ _ _ _ hr
    have h2 := (List.mem_filter.1 h1).2
    simpa using h2
  · exact (dedupByKey_nodup _ _ _).1
  · intro c
    exact dedupByKey_find _ _ _ c (List.not_mem_nil c)

/-- Witness for C8 at one sample row per adapter. -/
theorem C8_adapter_code_filter_dedup_witness :
    ((fetch_worldbank_countries [wbRowSample]).find? (fun r => r.iso3 == "ABW") =
      (wb_normalized [wbRowSample]).find? (fun r => r.iso3 == "ABW")) ∧
    ((fetch_restcountries [rcRowSample]).find? (fun r => r.iso3 == "ABW") =
      (rc_normalized [rcRowSample]).find? (fun r => r.iso3 == "ABW")) :=
  ⟨(C8_adapter_code_filter_dedup [wbRowSample] [rcRowSample]).2.2.1 "ABW",
   (C8_adapter_code_filter_dedup [wbRowSample] [rcRowSample]).2.2.2.2.2 "ABW"⟩
